import Mathlib

/-!
Verification of the color-theming component of the hdfc-live-assistant
repository (file src/gemini-voice-frontend/src/LogoContext.js).

The JavaScript functions hexToHSL, hslToHex and calculateComplementaryColor
are shallowly embedded below.  JavaScript numbers are modelled as exact
rationals, with NaN modelled as the `none` value of `Option`; every
arithmetic operation propagates NaN exactly as IEEE/JS arithmetic does on
the code paths that occur here (no division by zero and no infinities are
reachable in this code).  `Math.round x` is `floor (x + 1/2)` (ties toward
positive infinity), `(x).toFixed(1)` followed by unary plus is rounding to
one decimal digit with ties rounded up, and the JS remainder operator `%`
truncates the quotient toward zero.  `parseInt(s, 16)` is modelled with
its leading-whitespace, sign and 0x-prefix handling and its
longest-hex-digit-prefix semantics; `NaN.toString(16)` is the string
"NaN".  Strings are processed through their character lists.
-/

set_option allowUnsafeReducibility true in
attribute [semireducible] Rat.add Rat.mul Rat.sub Rat.inv

/-- A JavaScript number: a rational, or `none` for NaN. -/
abbrev JNum := Option ℚ

/-- Computable floor of a rational. -/
def ratFloor (q : ℚ) : ℤ := q.num.ediv q.den

/-- JS `Math.round`: floor (x + 1/2), ties toward positive infinity. -/
def jsRound (q : ℚ) : ℚ := (ratFloor (q + 1/2) : ℚ)

/-- JS `+(x.toFixed(1))`: round to one decimal digit, ties away from the
smaller value. -/
def toFixed1 (q : ℚ) : ℚ := (ratFloor (q * 10 + 1/2) : ℚ) / 10

/-- Truncation toward zero, as used by the JS `%` operator. -/
def ratTrunc (q : ℚ) : ℤ := if 0 ≤ q then ratFloor q else -(ratFloor (-q))

/-- JS remainder `a % b` on real operands (sign of the dividend). -/
def jsRemQ (a b : ℚ) : ℚ := a - b * (ratTrunc (a / b) : ℚ)

def jadd : JNum → JNum → JNum
  | some a, some b => some (a + b)
  | _, _ => none

def jsub : JNum → JNum → JNum
  | some a, some b => some (a - b)
  | _, _ => none

def jmul : JNum → JNum → JNum
  | some a, some b => some (a * b)
  | _, _ => none

/-- JS division; the divisor is a nonzero constant or a guarded nonzero
value at every call site of the embedded code, so the zero-divisor case
(infinity in JS) is unreachable and mapped to `none`. -/
def jdiv : JNum → JNum → JNum
  | some a, some b => if b = 0 then none else some (a / b)
  | _, _ => none

/-- JS `%`; `x % 0` is NaN. -/
def jrem : JNum → JNum → JNum
  | some a, some b => if b = 0 then none else some (jsRemQ a b)
  | _, _ => none

/-- JS `Math.min` on two arguments: NaN if either argument is NaN. -/
def jmin : JNum → JNum → JNum
  | some a, some b => some (min a b)
  | _, _ => none

/-- JS `Math.max` on two arguments: NaN if either argument is NaN. -/
def jmax : JNum → JNum → JNum
  | some a, some b => some (max a b)
  | _, _ => none

/-- JS `Math.abs`. -/
def jabs : JNum → JNum := Option.map (fun q => |q|)

/-- JS `Math.round` lifted to JS numbers. -/
def jround : JNum → JNum := Option.map jsRound

/-- JS `+(x.toFixed(1))` lifted to JS numbers. -/
def jfix1 : JNum → JNum := Option.map toFixed1

/-- JS `<` : false when either operand is NaN. -/
def jlt : JNum → JNum → Bool
  | some a, some b => decide (a < b)
  | _, _ => false

/-- JS `<=` : false when either operand is NaN. -/
def jle : JNum → JNum → Bool
  | some a, some b => decide (a ≤ b)
  | _, _ => false

/-- JS `===` on numbers: false when either operand is NaN. -/
def jeqb : JNum → JNum → Bool
  | some a, some b => decide (a = b)
  | _, _ => false

/-- Value of one hexadecimal digit character, case insensitive (the
arms are listed from F down to 0; the patterns are disjoint, so the
order has no effect). -/
def hexDigitVal : Char → Option ℕ
  | 'F' => some 15 | 'E' => some 14 | 'D' => some 13
  | 'C' => some 12 | 'B' => some 11 | 'A' => some 10
  | 'f' => some 15 | 'e' => some 14 | 'd' => some 13
  | 'c' => some 12 | 'b' => some 11 | 'a' => some 10
  | '9' => some 9 | '8' => some 8 | '7' => some 7 | '6' => some 6
  | '5' => some 5 | '4' => some 4 | '3' => some 3 | '2' => some 2
  | '1' => some 1 | '0' => some 0
  | _ => none

/-- The whitespace characters skipped by `parseInt` (the common ones). -/
def isJsSpace (c : Char) : Bool :=
  c = ' ' || c = '\t' || c = '\n' || c = '\r' || c = '\u000b' || c = '\u000c'

/-- Accumulate the longest leading run of hex digits; `none` when the run
is empty (`parseInt` returns NaN then). -/
def hexRun : List Char → Option ℕ → Option ℕ
  | [], acc => acc
  | c :: cs, acc =>
    match hexDigitVal c with
    | some d => hexRun cs (some (16 * acc.getD 0 + d))
    | none => acc

/-- Read the optional sign accepted by `parseInt`. -/
def parseSign : List Char → Bool × List Char
  | '-' :: t => (true, t)
  | '+' :: t => (false, t)
  | cs => (false, cs)

/-- Strip the optional `0x`/`0X` prefix accepted by `parseInt` at radix 16. -/
def strip0x : List Char → List Char
  | '0' :: 'x' :: t => t
  | '0' :: 'X' :: t => t
  | cs => cs

/-- `parseInt(s, 16)` on a character list: skip whitespace, read an
optional sign, strip an optional `0x`/`0X` prefix, then read the longest
run of hex digits; NaN (`none`) if that run is empty. -/
def parseIntHexL (cs0 : List Char) : Option ℤ :=
  let sgn := parseSign (cs0.dropWhile isJsSpace)
  match hexRun (strip0x sgn.2) none with
  | some n => some (if sgn.1 then -(n : ℤ) else (n : ℤ))
  | none => none

/-- `parseInt(s, 16)` as a JS number. -/
def jparse (cs : List Char) : JNum := (parseIntHexL cs).map fun n => (n : ℚ)

/-- `hex.replace(/^#/, '')`: drop one leading `#`. -/
def stripHashL : List Char → List Char
  | '#' :: t => t
  | cs => cs

/-- The record returned by `hexToHSL`. -/
structure HSL where
  h : JNum
  s : JNum
  l : JNum
deriving DecidableEq, Repr

/-- Embedding of `hexToHSL` from LogoContext.js (lines 6-43). -/
def hexToHSL (hex : String) : HSL :=
  let cs := stripHashL hex.data
  let r := jdiv (jparse (cs.take 2)) (some 255)
  let g := jdiv (jparse ((cs.drop 2).take 2)) (some 255)
  let b := jdiv (jparse ((cs.drop 4).take 2)) (some 255)
  let cmin := jmin r (jmin g b)
  let cmax := jmax r (jmax g b)
  let delta := jsub cmax cmin
  let h0 : JNum :=
    if jeqb delta (some 0) then some 0
    else if jeqb cmax r then jrem (jdiv (jsub g b) delta) (some 6)
    else if jeqb cmax g then jadd (jdiv (jsub b r) delta) (some 2)
    else jadd (jdiv (jsub r g) delta) (some 4)
  let h1 := jround (jmul h0 (some 60))
  let h2 := if jlt h1 (some 0) then jadd h1 (some 360) else h1
  let l0 := jdiv (jadd cmax cmin) (some 2)
  let s0 : JNum :=
    if jeqb delta (some 0) then some 0
    else jdiv delta (jsub (some 1) (jabs (jsub (jmul (some 2) l0) (some 1))))
  HSL.mk h2 (jfix1 (jmul s0 (some 100))) (jfix1 (jmul l0 (some 100)))

/-- Lowercase hexadecimal digits of a natural number. -/
def natToHexStr (n : ℕ) : String := String.mk (Nat.toDigits 16 n)

/-- JS `n.toString(16)` for an integer value. -/
def intToHexStr (n : ℤ) : String :=
  if n < 0 then "-" ++ natToHexStr n.natAbs else natToHexStr n.toNat

/-- JS `str.padStart(2, '0')`. -/
def padStart2 (s : String) : String :=
  if s.length ≥ 2 then s else if s.length = 1 then "0" ++ s else "00"

/-- `Math.round(v).toString(16).padStart(2, '0')` for one channel value,
the string "NaN" when the value is NaN. -/
def chanToHex (v : JNum) : String :=
  match v with
  | none => padStart2 "NaN"
  | some q => padStart2 (intToHexStr (ratFloor (q + 1/2)))

/-- Embedding of `hslToHex` from LogoContext.js (lines 46-78). -/
def hslToHex (h s0 l0 : JNum) : String :=
  let s := jdiv s0 (some 100)
  let l := jdiv l0 (some 100)
  let c := jmul (jsub (some 1) (jabs (jsub (jmul (some 2) l) (some 1)))) s
  let x := jmul c (jsub (some 1) (jabs (jsub (jrem (jdiv h (some 60)) (some 2)) (some 1))))
  let m := jsub l (jdiv c (some 2))
  let rgb : JNum × JNum × JNum :=
    if jle (some 0) h && jlt h (some 60) then (c, x, some 0)
    else if jle (some 60) h && jlt h (some 120) then (x, c, some 0)
    else if jle (some 120) h && jlt h (some 180) then (some 0, c, x)
    else if jle (some 180) h && jlt h (some 240) then (some 0, x, c)
    else if jle (some 240) h && jlt h (some 300) then (x, some 0, c)
    else (c, some 0, x)
  "#" ++ chanToHex (jmul (jadd rgb.1 m) (some 255))
      ++ chanToHex (jmul (jadd rgb.2.1 m) (some 255))
      ++ chanToHex (jmul (jadd rgb.2.2 m) (some 255))

/-- Embedding of `calculateComplementaryColor` from LogoContext.js
(lines 81-97); the only falsy string is the empty string. -/
def calculateComplementaryColor (hexColor : String) : String :=
  if hexColor.isEmpty then "#6495ED"
  else
    let hsl := hexToHSL hexColor
    let newHue := jrem (jadd hsl.h (some 180)) (some 360)
    let newSaturation := jmin (jmax hsl.s (some 60)) (some 90)
    let newLightness :=
      if jlt hsl.l (some 50) then jmin (jadd hsl.l (some 30)) (some 80)
      else jmax (jsub hsl.l (some 30)) (some 30)
    hslToHex newHue newSaturation newLightness

/-- The adjusted (hue, saturation, lightness) triple computed inside
`calculateComplementaryColor` before re-encoding to hex (lines 86-94). -/
def complementaryHSL (hexColor : String) : JNum × JNum × JNum :=
  let hsl := hexToHSL hexColor
  (jrem (jadd hsl.h (some 180)) (some 360),
   jmin (jmax hsl.s (some 60)) (some 90),
   if jlt hsl.l (some 50) then jmin (jadd hsl.l (some 30)) (some 80)
   else jmax (jsub hsl.l (some 30)) (some 30))

/-- Initial dominant color of `LogoProvider` (line 101). -/
def defaultDominantColor : String := "#282c34"

/-- Initial complementary color state of `LogoProvider` (line 102),
replaced on mount by the derived value. -/
def initialComplementaryColor : String := "#ED7D31"

/-- Complementary color after the mount effect of `LogoProvider` runs
with the default dominant color (lines 123-126). -/
def mountedComplementaryColor : String :=
  calculateComplementaryColor defaultDominantColor

/-- A character is a hexadecimal digit. -/
def isHexDigit (c : Char) : Bool := (hexDigitVal c).isSome

/-- A valid 6-hex-digit color string, optionally preceded by `#`. -/
def validHexColor (s : String) : Bool :=
  let cs := stripHashL s.data
  cs.length = 6 && cs.all isHexDigit

/-- The three `parseInt` results extracted by `hexToHSL` from a color
string, before the division by 255. -/
def hexRGB (s : String) : Option ℤ × Option ℤ × Option ℤ :=
  let cs := stripHashL s.data
  (parseIntHexL (cs.take 2), parseIntHexL ((cs.drop 2).take 2),
   parseIntHexL ((cs.drop 4).take 2))

/-- The pure-rational core of `hexToHSL`, reached when all three channel
values parse successfully. -/
def coreHSL (R G B : ℚ) : ℚ × ℚ × ℚ :=
  let r := R / 255
  let g := G / 255
  let b := B / 255
  let cmin := min r (min g b)
  let cmax := max r (max g b)
  let delta := cmax - cmin
  let h0 : ℚ :=
    if delta = 0 then 0
    else if cmax = r then jsRemQ ((g - b) / delta) 6
    else if cmax = g then (b - r) / delta + 2
    else (r - g) / delta + 4
  let h1 := jsRound (h0 * 60)
  let h2 := if h1 < 0 then h1 + 360 else h1
  let l0 := (cmax + cmin) / 2
  let s0 : ℚ := if delta = 0 then 0 else delta / (1 - |2 * l0 - 1|)
  (h2, toFixed1 (s0 * 100), toFixed1 (l0 * 100))

/-- The saturation percentage `hexToHSL` computes from the maximal and
minimal scaled channel values (the saturation component of `coreHSL`). -/
def satOfMinMax (mx mn : ℚ) : ℚ :=
  toFixed1 ((if mx - mn = 0 then 0
    else (mx - mn) / (1 - |2 * ((mx + mn) / 2) - 1|)) * 100)

/-- The lightness percentage `hexToHSL` computes from the maximal and
minimal scaled channel values (the lightness component of `coreHSL`). -/
def lightOfMinMax (mx mn : ℚ) : ℚ :=
  toFixed1 ((mx + mn) / 2 * 100)

example : hexToHSL "#ff0000" = HSL.mk (some 0) (some 100) (some 50) := by decide
example : hexToHSL "#282c34" = HSL.mk (some 220) (some 13) (some 18) := by decide
example : calculateComplementaryColor "#282c34" = "#c49331" := by decide
example : hexToHSL "#zzz" = HSL.mk none none none := by decide
example : calculateComplementaryColor "#zzz" = "#NaNNaNNaN" := by decide
example : calculateComplementaryColor "#ff0000" = "#089191" := by decide
example : hexToHSL "#089191" = HSL.mk (some 180) (some (179/2)) (some 30) := by decide

/-! ### Basic lemmas about the JS-number operations -/

theorem ratFloor_eq (q : ℚ) : ratFloor q = ⌊q⌋ := by
  rw [Rat.floor_def]; rfl

theorem jsRound_eq (q : ℚ) : jsRound q = (⌊q + 1/2⌋ : ℤ) := by
  unfold jsRound; rw [ratFloor_eq]

theorem toFixed1_eq (q : ℚ) : toFixed1 q = ((⌊q * 10 + 1/2⌋ : ℤ) : ℚ) / 10 := by
  unfold toFixed1; rw [ratFloor_eq]

theorem toFixed1_sub_le (q : ℚ) : |toFixed1 q - q| ≤ 1/20 := by
  rw [toFixed1_eq, abs_le]
  have h1 : (⌊q * 10 + 1/2⌋ : ℚ) ≤ q * 10 + 1/2 := Int.floor_le _
  have h2 : q * 10 + 1/2 - 1 < (⌊q * 10 + 1/2⌋ : ℚ) := Int.sub_one_lt_floor _
  constructor <;> [linarith; linarith]

theorem jadd_some (a b : ℚ) : jadd (some a) (some b) = some (a + b) := rfl

theorem jsub_some (a b : ℚ) : jsub (some a) (some b) = some (a - b) := rfl

theorem jmul_some (a b : ℚ) : jmul (some a) (some b) = some (a * b) := rfl

theorem jdiv_some (a b : ℚ) (h : b ≠ 0) : jdiv (some a) (some b) = some (a / b) := by
  simp [jdiv, h]

theorem jrem_some (a b : ℚ) (h : b ≠ 0) : jrem (some a) (some b) = some (jsRemQ a b) := by
  simp [jrem, h]

theorem jmin_some (a b : ℚ) : jmin (some a) (some b) = some (min a b) := rfl

theorem jmax_some (a b : ℚ) : jmax (some a) (some b) = some (max a b) := rfl

theorem jabs_some (a : ℚ) : jabs (some a) = some |a| := rfl

theorem jround_some (a : ℚ) : jround (some a) = some (jsRound a) := rfl

theorem jfix1_some (a : ℚ) : jfix1 (some a) = some (toFixed1 a) := rfl

theorem jlt_some (a b : ℚ) : jlt (some a) (some b) = decide (a < b) := rfl

theorem jle_some (a b : ℚ) : jle (some a) (some b) = decide (a ≤ b) := rfl

theorem jeqb_some (a b : ℚ) : jeqb (some a) (some b) = decide (a = b) := rfl

theorem jsRemQ_self (a b : ℚ) (ha : |a| < b) : jsRemQ a b = a := by
  have hb : 0 < b := lt_of_le_of_lt (abs_nonneg a) ha
  have h1 : |a / b| < 1 := by
    rw [abs_div, abs_of_pos hb, div_lt_one hb]; exact ha
  rw [abs_lt] at h1
  unfold jsRemQ ratTrunc
  rw [ratFloor_eq, ratFloor_eq]
  rcases le_or_lt 0 (a / b) with hq | hq
  · rw [if_pos hq, Int.floor_eq_zero_iff.2 ⟨hq, h1.2⟩]
    push_cast; ring
  · rw [if_neg (not_le.2 hq), Int.floor_eq_zero_iff.2 ⟨by linarith, by linarith⟩]
    push_cast; ring

/-! ### Lemmas about hexadecimal parsing -/

theorem hexDigit_facts (c : Char) (v : ℕ) (h : hexDigitVal c = some v) :
    v ≤ 15 ∧ isJsSpace c = false ∧ c ≠ '-' ∧ c ≠ '+' ∧ c ≠ 'x' ∧ c ≠ 'X' ∧ c ≠ '#' := by
  unfold hexDigitVal at h
  split at h <;> simp_all <;> subst h <;> decide

theorem hexRun_cons (c : Char) (v : ℕ) (t : List Char) (a : Option ℕ)
    (h : hexDigitVal c = some v) :
    hexRun (c :: t) a = hexRun t (some (16 * a.getD 0 + v)) := by
  simp [hexRun, h]

theorem parseIntHexL_pair (c1 c2 : Char) (v1 v2 : ℕ)
    (h1 : hexDigitVal c1 = some v1) (h2 : hexDigitVal c2 = some v2) :
    parseIntHexL [c1, c2] = some ((16 * v1 + v2 : ℕ) : ℤ) := by
  obtain ⟨-, hs1, hm1, hp1, -, -, -⟩ := hexDigit_facts c1 v1 h1
  obtain ⟨-, -, -, -, hx2, hX2, -⟩ := hexDigit_facts c2 v2 h2
  have hsgn : parseSign [c1, c2] = (false, [c1, c2]) := by
    unfold parseSign
    split
    next heq => exact absurd (List.cons.inj heq).1 hm1
    next heq => exact absurd (List.cons.inj heq).1 hp1
    next => rfl
  have hpre : strip0x [c1, c2] = [c1, c2] := by
    unfold strip0x
    split
    next heq => exact absurd (List.cons.inj heq).2 (by simp [hx2])
    next heq => exact absurd (List.cons.inj heq).2 (by simp [hX2])
    next => rfl
  unfold parseIntHexL
  rw [List.dropWhile_cons_of_neg (by simp [hs1]), hsgn]
  simp only [hpre, hexRun_cons c1 v1 _ _ h1, hexRun_cons c2 v2 _ _ h2]
  simp [hexRun]

theorem list_six {α : Type} (cs : List α) (h : cs.length = 6) :
    ∃ a b c d e f, cs = [a, b, c, d, e, f] := by
  rcases cs with _ | ⟨a, _ | ⟨b, _ | ⟨c, _ | ⟨d, _ | ⟨e, _ | ⟨f, _ | ⟨g, t⟩⟩⟩⟩⟩⟩⟩ <;>
    first
      | exact ⟨_, _, _, _, _, _, rfl⟩
      | (exfalso; simp at h)

theorem valid_hexRGB (s : String) (h : validHexColor s = true) :
    ∃ R G B : ℤ, hexRGB s = (some R, some G, some B) ∧
      0 ≤ R ∧ R ≤ 255 ∧ 0 ≤ G ∧ G ≤ 255 ∧ 0 ≤ B ∧ B ≤ 255 := by
  unfold validHexColor at h
  rw [Bool.and_eq_true] at h
  obtain ⟨hlen, hall⟩ := h
  obtain ⟨c1, c2, c3, c4, c5, c6, hcs⟩ := list_six _ (by simpa using hlen)
  rw [List.all_eq_true] at hall
  have hv : ∀ c ∈ stripHashL s.data, ∃ v, hexDigitVal c = some v := by
    intro c hc
    have := hall c hc
    simpa [isHexDigit, Option.isSome_iff_exists] using this
  rw [hcs] at hv
  obtain ⟨v1, hd1⟩ := hv c1 (by simp)
  obtain ⟨v2, hd2⟩ := hv c2 (by simp)
  obtain ⟨v3, hd3⟩ := hv c3 (by simp)
  obtain ⟨v4, hd4⟩ := hv c4 (by simp)
  obtain ⟨v5, hd5⟩ := hv c5 (by simp)
  obtain ⟨v6, hd6⟩ := hv c6 (by simp)
  have b1 := (hexDigit_facts c1 v1 hd1).1
  have b2 := (hexDigit_facts c2 v2 hd2).1
  have b3 := (hexDigit_facts c3 v3 hd3).1
  have b4 := (hexDigit_facts c4 v4 hd4).1
  have b5 := (hexDigit_facts c5 v5 hd5).1
  have b6 := (hexDigit_facts c6 v6 hd6).1
  refine ⟨(16 * v1 + v2 : ℕ), (16 * v3 + v4 : ℕ), (16 * v5 + v6 : ℕ), ?_,
    by positivity, by exact_mod_cast by omega,
    by positivity, by exact_mod_cast by omega,
    by positivity, by exact_mod_cast by omega⟩
  unfold hexRGB
  rw [hcs]
  show (parseIntHexL [c1, c2], parseIntHexL [c3, c4], parseIntHexL [c5, c6]) =
    (some ((16 * v1 + v2 : ℕ) : ℤ), some ((16 * v3 + v4 : ℕ) : ℤ),
     some ((16 * v5 + v6 : ℕ) : ℤ))
  rw [parseIntHexL_pair c1 c2 v1 v2 hd1 hd2, parseIntHexL_pair c3 c4 v3 v4 hd3 hd4,
    parseIntHexL_pair c5 c6 v5 v6 hd5 hd6]

theorem mn_le_mx (r g b : ℚ) : min r (min g b) ≤ max r (max g b) :=
  le_trans (min_le_left _ _) (le_max_left _ _)

theorem sdenom_lower (r g b : ℚ) (hr : 0 ≤ r) (hr1 : r ≤ 1) (hg : 0 ≤ g)
    (hg1 : g ≤ 1) (hb : 0 ≤ b) (hb1 : b ≤ 1) :
    max r (max g b) - min r (min g b) ≤
      1 - |2 * ((max r (max g b) + min r (min g b)) / 2) - 1| := by
  have hmx1 : max r (max g b) ≤ 1 := max_le hr1 (max_le hg1 hb1)
  have hmn0 : 0 ≤ min r (min g b) := le_min hr (le_min hg hb)
  rcases abs_cases (2 * ((max r (max g b) + min r (min g b)) / 2) - 1) with
    ⟨he, -⟩ | ⟨he, -⟩ <;> rw [he] <;> linarith

theorem jdiv_some255 (a : ℚ) : jdiv (some a) (some 255) = some (a / 255) :=
  jdiv_some a 255 (by norm_num)

theorem jdiv_some2 (a : ℚ) : jdiv (some a) (some 2) = some (a / 2) :=
  jdiv_some a 2 (by norm_num)

theorem jdiv_some100 (a : ℚ) : jdiv (some a) (some 100) = some (a / 100) :=
  jdiv_some a 100 (by norm_num)

theorem jdiv_some60 (a : ℚ) : jdiv (some a) (some 60) = some (a / 60) :=
  jdiv_some a 60 (by norm_num)

theorem jrem_some6 (a : ℚ) : jrem (some a) (some 6) = some (jsRemQ a 6) :=
  jrem_some a 6 (by norm_num)

theorem jrem_some2 (a : ℚ) : jrem (some a) (some 2) = some (jsRemQ a 2) :=
  jrem_some a 2 (by norm_num)

theorem jrem_some360 (a : ℚ) : jrem (some a) (some 360) = some (jsRemQ a 360) :=
  jrem_some a 360 (by norm_num)

theorem jparse_of_parse (cs : List Char) (n : ℤ) (h : parseIntHexL cs = some n) :
    jparse cs = some ((n : ℤ) : ℚ) := by
  simp [jparse, h]

theorem some_ite (P : Prop) [Decidable P] (a b : ℚ) :
    (some (if P then a else b) : Option ℚ) = if P then some a else some b :=
  apply_ite some P a b

set_option maxHeartbeats 1000000 in
set_option maxRecDepth 8000 in
theorem hexToHSL_eq_core (str : String) (R G B : ℤ)
    (hRG : hexRGB str = (some R, some G, some B))
    (h0R : 0 ≤ R) (h1R : R ≤ 255) (h0G : 0 ≤ G) (h1G : G ≤ 255)
    (h0B : 0 ≤ B) (h1B : B ≤ 255) :
    hexToHSL str = HSL.mk (some (coreHSL R G B).1) (some (coreHSL R G B).2.1)
      (some (coreHSL R G B).2.2) := by
  unfold hexRGB at hRG
  simp only [Prod.mk.injEq] at hRG
  obtain ⟨hp1, hp2, hp3⟩ := hRG
  have hr0 : (0:ℚ) ≤ (R:ℚ)/255 := by positivity
  have hg0 : (0:ℚ) ≤ (G:ℚ)/255 := by positivity
  have hb0 : (0:ℚ) ≤ (B:ℚ)/255 := by positivity
  have hr1 : (R:ℚ)/255 ≤ 1 := by
    rw [div_le_one (by norm_num)]; exact_mod_cast h1R
  have hg1 : (G:ℚ)/255 ≤ 1 := by
    rw [div_le_one (by norm_num)]; exact_mod_cast h1G
  have hb1 : (B:ℚ)/255 ≤ 1 := by
    rw [div_le_one (by norm_num)]; exact_mod_cast h1B
  have hd0 : (0:ℚ) ≤ max ((R:ℚ)/255) (max ((G:ℚ)/255) ((B:ℚ)/255)) -
      min ((R:ℚ)/255) (min ((G:ℚ)/255) ((B:ℚ)/255)) :=
    sub_nonneg.2 (mn_le_mx _ _ _)
  have hsd := sdenom_lower ((R:ℚ)/255) ((G:ℚ)/255) ((B:ℚ)/255)
    hr0 hr1 hg0 hg1 hb0 hb1
  simp only [hexToHSL, jparse_of_parse _ _ hp1, jparse_of_parse _ _ hp2,
    jparse_of_parse _ _ hp3]
  unfold coreHSL
  simp only [jdiv_some255, jdiv_some2, jadd_some, jsub_some, jmul_some,
    jmin_some, jmax_some, jabs_some, jround_some, jfix1_some, jeqb_some,
    jlt_some, decide_eq_true_eq, some_ite]
  set r3 : ℚ := (R:ℚ)/255 with hr3
  set g3 : ℚ := (G:ℚ)/255 with hg3
  set b3 : ℚ := (B:ℚ)/255 with hb3
  set mx : ℚ := max r3 (max g3 b3) with hmx
  set mn : ℚ := min r3 (min g3 b3) with hmn
  by_cases hδ : mx - mn = 0
  · simp only [if_pos hδ, jmul_some, jround_some, jlt_some, jadd_some,
      jfix1_some, decide_eq_true_eq, some_ite]
  · have hδp : (0:ℚ) < 1 - |2 * ((mx + mn) / 2) - 1| :=
      lt_of_lt_of_le (lt_of_le_of_ne hd0 (Ne.symm hδ)) hsd
    have hden : (1 - |2 * ((mx + mn) / 2) - 1|) ≠ 0 := ne_of_gt hδp
    simp only [if_neg hδ, jdiv_some _ _ hδ, jdiv_some _ _ hden]
    by_cases hmr : mx = r3
    · simp only [if_pos hmr, jrem_some6, jmul_some, jround_some, jlt_some,
        jadd_some, jfix1_some, decide_eq_true_eq, some_ite]
    · simp only [if_neg hmr]
      by_cases hmg : mx = g3
      · simp only [if_pos hmg, jadd_some, jmul_some, jround_some, jlt_some,
          jfix1_some, decide_eq_true_eq, some_ite]
      · simp only [if_neg hmg, jadd_some, jmul_some, jround_some, jlt_some,
          jfix1_some, decide_eq_true_eq, some_ite]

theorem toFixed1_bound (x : ℚ) (h0 : 0 ≤ x) (h1 : x ≤ 100) :
    ∃ k : ℤ, toFixed1 x = (k:ℚ)/10 ∧ 0 ≤ k ∧ k ≤ 1000 := by
  refine ⟨⌊x * 10 + 1/2⌋, by rw [toFixed1_eq], ?_, ?_⟩
  · exact Int.le_floor.2 (by push_cast; linarith)
  · have h2 : (⌊x * 10 + 1/2⌋ : ℚ) ≤ x * 10 + 1/2 := Int.floor_le _
    by_contra hc
    push_neg at hc
    have h3 : (1001 : ℤ) ≤ ⌊x * 10 + 1/2⌋ := hc
    have h4 : ((1001 : ℤ) : ℚ) ≤ (⌊x * 10 + 1/2⌋ : ℚ) := by exact_mod_cast h3
    push_cast at h4
    linarith

theorem jsRound_bounds (x lo hi : ℚ) (hl : lo ≤ x) (hh : x ≤ hi) :
    ∃ n : ℤ, jsRound x = (n:ℚ) ∧ lo - 1/2 < (n:ℚ) ∧ (n:ℚ) ≤ hi + 1/2 := by
  refine ⟨ratFloor (x + 1/2), rfl, ?_, ?_⟩ <;> rw [ratFloor_eq]
  · have := Int.sub_one_lt_floor (x + 1/2)
    linarith
  · have := Int.floor_le (x + 1/2)
    linarith

theorem int_ge_half (m n : ℤ) (h : (m:ℚ) - 1/2 < (n:ℚ)) : m ≤ n := by
  by_contra hc
  push_neg at hc
  have h2 : n ≤ m - 1 := Int.le_sub_one_of_lt hc
  have h3 : (n:ℚ) ≤ (m:ℚ) - 1 := by exact_mod_cast h2
  linarith

theorem int_le_half (n m : ℤ) (h : (n:ℚ) ≤ (m:ℚ) + 1/2) : n ≤ m := by
  by_contra hc
  push_neg at hc
  have h2 : m + 1 ≤ n := hc
  have h3 : (m:ℚ) + 1 ≤ (n:ℚ) := by exact_mod_cast h2
  linarith

set_option maxHeartbeats 1000000 in
theorem coreHSL_spec (R G B : ℤ)
    (h0R : 0 ≤ R) (h1R : R ≤ 255) (h0G : 0 ≤ G) (h1G : G ≤ 255)
    (h0B : 0 ≤ B) (h1B : B ≤ 255) :
    ∃ n k j : ℤ,
      (coreHSL R G B).1 = (n:ℚ) ∧ 0 ≤ n ∧ n < 360 ∧
      (coreHSL R G B).2.1 = (k:ℚ)/10 ∧ 0 ≤ k ∧ k ≤ 1000 ∧
      (coreHSL R G B).2.2 = (j:ℚ)/10 ∧ 0 ≤ j ∧ j ≤ 1000 := by
  have hr0 : (0:ℚ) ≤ (R:ℚ)/255 := by positivity
  have hg0 : (0:ℚ) ≤ (G:ℚ)/255 := by positivity
  have hb0 : (0:ℚ) ≤ (B:ℚ)/255 := by positivity
  have hr1 : (R:ℚ)/255 ≤ 1 := by
    rw [div_le_one (by norm_num)]; exact_mod_cast h1R
  have hg1 : (G:ℚ)/255 ≤ 1 := by
    rw [div_le_one (by norm_num)]; exact_mod_cast h1G
  have hb1 : (B:ℚ)/255 ≤ 1 := by
    rw [div_le_one (by norm_num)]; exact_mod_cast h1B
  have hsd := sdenom_lower ((R:ℚ)/255) ((G:ℚ)/255) ((B:ℚ)/255)
    hr0 hr1 hg0 hg1 hb0 hb1
  simp only [coreHSL]
  set r3 : ℚ := (R:ℚ)/255 with hr3
  set g3 : ℚ := (G:ℚ)/255 with hg3
  set b3 : ℚ := (B:ℚ)/255 with hb3
  set mx : ℚ := max r3 (max g3 b3) with hmx
  set mn : ℚ := min r3 (min g3 b3) with hmn
  have hmxg : g3 ≤ mx := le_trans (le_max_left _ _) (le_max_right _ _)
  have hmxb : b3 ≤ mx := le_trans (le_max_right _ _) (le_max_right _ _)
  have hmxr : r3 ≤ mx := le_max_left _ _
  have hmnr : mn ≤ r3 := min_le_left _ _
  have hmng : mn ≤ g3 := le_trans (min_le_right _ _) (min_le_left _ _)
  have hmnb : mn ≤ b3 := le_trans (min_le_right _ _) (min_le_right _ _)
  have hmx1 : mx ≤ 1 := max_le hr1 (max_le hg1 hb1)
  have hmn0 : 0 ≤ mn := le_min hr0 (le_min hg0 hb0)
  have hδ0 : (0:ℚ) ≤ mx - mn := by linarith
  obtain ⟨j, hj, hj0, hj1⟩ := toFixed1_bound ((mx + mn) / 2 * 100)
    (by linarith) (by linarith)
  by_cases hδ : mx - mn = 0
  · refine ⟨0, 0, j, ?_, le_refl 0, by norm_num, ?_, le_refl 0, by norm_num,
      hj, hj0, hj1⟩
    · rw [if_pos hδ]
      rw [if_neg (by decide : ¬ (jsRound ((0:ℚ) * 60) < 0))]
      decide
    · rw [if_pos hδ]
      decide
  · have hδp : (0:ℚ) < mx - mn := lt_of_le_of_ne hδ0 (Ne.symm hδ)
    have hdenp : (0:ℚ) < 1 - |2 * ((mx + mn) / 2) - 1| := lt_of_lt_of_le hδp hsd
    have hs0 : (0:ℚ) ≤ (mx - mn) / (1 - |2 * ((mx + mn) / 2) - 1|) :=
      div_nonneg hδ0 (le_of_lt hdenp)
    have hs1 : (mx - mn) / (1 - |2 * ((mx + mn) / 2) - 1|) ≤ 1 :=
      (div_le_one hdenp).2 hsd
    obtain ⟨k, hk, hk0, hk1⟩ := toFixed1_bound
      ((mx - mn) / (1 - |2 * ((mx + mn) / 2) - 1|) * 100) (by linarith) (by linarith)
    rw [if_neg hδ, if_neg hδ]
    by_cases hmr : mx = r3
    · rw [if_pos hmr]
      have habs : |(g3 - b3) / (mx - mn)| ≤ 1 := by
        rw [abs_div, abs_of_pos hδp, div_le_one hδp]
        rw [abs_le]
        constructor <;> linarith
      rw [jsRemQ_self _ 6 (lt_of_le_of_lt habs (by norm_num))]
      have hx1 : (-60:ℚ) ≤ (g3 - b3) / (mx - mn) * 60 := by
        rw [abs_le] at habs
        linarith [habs.1]
      have hx2 : (g3 - b3) / (mx - mn) * 60 ≤ 60 := by
        rw [abs_le] at habs
        linarith [habs.2]
      obtain ⟨n, hn, hnlo, hnhi⟩ := jsRound_bounds _ _ _ hx1 hx2
      have hn1 : -60 ≤ n := int_ge_half (-60) n (by push_cast at hnlo ⊢; linarith)
      have hn2 : n ≤ 60 := int_le_half n 60 (by push_cast at hnhi ⊢; linarith)
      rw [hn]
      by_cases hneg : n < 0
      · rw [if_pos (by exact_mod_cast hneg : ((n:ℚ) < 0))]
        refine ⟨n + 360, k, j, ?_, by omega, by omega, hk, hk0, hk1, hj, hj0, hj1⟩
        push_cast
        ring
      · rw [if_neg (by exact_mod_cast hneg : ¬((n:ℚ) < 0))]
        exact ⟨n, k, j, rfl, by omega, by omega, hk, hk0, hk1, hj, hj0, hj1⟩
    · rw [if_neg hmr]
      by_cases hmg : mx = g3
      · rw [if_pos hmg]
        have habs : |(b3 - r3) / (mx - mn)| ≤ 1 := by
          rw [abs_div, abs_of_pos hδp, div_le_one hδp]
          rw [abs_le]
          constructor <;> linarith
        rw [abs_le] at habs
        have hx1 : (60:ℚ) ≤ ((b3 - r3) / (mx - mn) + 2) * 60 := by linarith
        have hx2 : ((b3 - r3) / (mx - mn) + 2) * 60 ≤ 180 := by linarith
        obtain ⟨n, hn, hnlo, hnhi⟩ := jsRound_bounds _ _ _ hx1 hx2
        have hn1 : 60 ≤ n := int_ge_half 60 n (by push_cast at hnlo ⊢; linarith)
        have hn2 : n ≤ 180 := int_le_half n 180 (by push_cast at hnhi ⊢; linarith)
        rw [hn]
        rw [if_neg (by exact_mod_cast (by omega : ¬(n < 0)) : ¬((n:ℚ) < 0))]
        exact ⟨n, k, j, rfl, by omega, by omega, hk, hk0, hk1, hj, hj0, hj1⟩
      · rw [if_neg hmg]
        have habs : |(r3 - g3) / (mx - mn)| ≤ 1 := by
          rw [abs_div, abs_of_pos hδp, div_le_one hδp]
          rw [abs_le]
          constructor <;> linarith
        rw [abs_le] at habs
        have hx1 : (180:ℚ) ≤ ((r3 - g3) / (mx - mn) + 4) * 60 := by linarith
        have hx2 : ((r3 - g3) / (mx - mn) + 4) * 60 ≤ 300 := by linarith
        obtain ⟨n, hn, hnlo, hnhi⟩ := jsRound_bounds _ _ _ hx1 hx2
        have hn1 : 180 ≤ n := int_ge_half 180 n (by push_cast at hnlo ⊢; linarith)
        have hn2 : n ≤ 300 := int_le_half n 300 (by push_cast at hnhi ⊢; linarith)
        rw [hn]
        rw [if_neg (by exact_mod_cast (by omega : ¬(n < 0)) : ¬((n:ℚ) < 0))]
        exact ⟨n, k, j, rfl, by omega, by omega, hk, hk0, hk1, hj, hj0, hj1⟩

theorem jsRemQ_intCast (a : ℤ) (b : ℕ) (ha : 0 ≤ a) (hb : 0 < b) :
    jsRemQ (a:ℚ) (b:ℚ) = ((a % (b:ℤ) : ℤ) : ℚ) := by
  have hbq : (0:ℚ) < (b:ℚ) := by exact_mod_cast hb
  have haq : (0:ℚ) ≤ (a:ℚ) := by exact_mod_cast ha
  unfold jsRemQ ratTrunc
  rw [if_pos (div_nonneg haq (le_of_lt hbq)), ratFloor_eq]
  have hfl : ⌊(a:ℚ) / (b:ℚ)⌋ = a / (b:ℤ) := Rat.floor_intCast_div_natCast a b
  rw [hfl, Int.emod_def]
  push_cast
  ring

/-- Claim C9: for every valid 6-hex-digit color input, `hexToHSL` returns
a hue that is an integer in [0,360), and saturation and lightness that are
percentages in [0,100], each an integer multiple of one tenth (rounded to
one decimal place). -/
theorem claim_C9_hsl_ranges (s : String) (h : validHexColor s = true) :
    ∃ n k j : ℤ,
      (hexToHSL s).h = some ((n:ℚ)) ∧ 0 ≤ n ∧ n < 360 ∧
      (hexToHSL s).s = some ((k:ℚ)/10) ∧ 0 ≤ ((k:ℚ)/10) ∧ ((k:ℚ)/10) ≤ 100 ∧
      (hexToHSL s).l = some ((j:ℚ)/10) ∧ 0 ≤ ((j:ℚ)/10) ∧ ((j:ℚ)/10) ≤ 100 := by
  obtain ⟨R, G, B, hRG, b1, b2, b3, b4, b5, b6⟩ := valid_hexRGB s h
  rw [hexToHSL_eq_core s R G B hRG b1 b2 b3 b4 b5 b6]
  obtain ⟨n, k, j, e1, e2, e3, e4, e5, e6, e7, e8, e9⟩ :=
    coreHSL_spec R G B b1 b2 b3 b4 b5 b6
  refine ⟨n, k, j, by rw [e1], e2, e3, by rw [e4], ?_, ?_, by rw [e7], ?_, ?_⟩
  · exact div_nonneg (by exact_mod_cast e5) (by norm_num)
  · rw [div_le_iff (by norm_num)]
    exact_mod_cast e6
  · exact div_nonneg (by exact_mod_cast e8) (by norm_num)
  · rw [div_le_iff (by norm_num)]
    exact_mod_cast e9

theorem claim_C9_witness :
    validHexColor "#282c34" = true ∧
    (∃ n k j : ℤ,
      (hexToHSL "#282c34").h = some ((n:ℚ)) ∧ 0 ≤ n ∧ n < 360 ∧
      (hexToHSL "#282c34").s = some ((k:ℚ)/10) ∧ 0 ≤ ((k:ℚ)/10) ∧ ((k:ℚ)/10) ≤ 100 ∧
      (hexToHSL "#282c34").l = some ((j:ℚ)/10) ∧ 0 ≤ ((j:ℚ)/10) ∧ ((j:ℚ)/10) ≤ 100) :=
  ⟨by decide, claim_C9_hsl_ranges "#282c34" (by decide)⟩

/-- Claim C5: for every valid 6-hex-digit color input, the adjusted
saturation computed inside `calculateComplementaryColor` (the clamp of the
original saturation to [60,90]) lies in [60,90], and the adjusted
lightness (l < 50 ? min(l+30,80) : max(l-30,30)) lies in [30,80]. -/
theorem claim_C5_adjusted_ranges (s : String) (h : validHexColor s = true) :
    ∃ sq lq : ℚ,
      (complementaryHSL s).2.1 = some sq ∧ 60 ≤ sq ∧ sq ≤ 90 ∧
      (complementaryHSL s).2.2 = some lq ∧ 30 ≤ lq ∧ lq ≤ 80 := by
  obtain ⟨R, G, B, hRG, b1, b2, b3, b4, b5, b6⟩ := valid_hexRGB s h
  obtain ⟨n, k, j, e1, e2, e3, e4, e5, e6, e7, e8, e9⟩ :=
    coreHSL_spec R G B b1 b2 b3 b4 b5 b6
  have hk0 : (0:ℚ) ≤ (k:ℚ)/10 := div_nonneg (by exact_mod_cast e5) (by norm_num)
  have hk1 : (k:ℚ)/10 ≤ 100 := by
    rw [div_le_iff₀ (by norm_num)]; exact_mod_cast e6
  have hj0 : (0:ℚ) ≤ (j:ℚ)/10 := div_nonneg (by exact_mod_cast e8) (by norm_num)
  have hj1 : (j:ℚ)/10 ≤ 100 := by
    rw [div_le_iff₀ (by norm_num)]; exact_mod_cast e9
  unfold complementaryHSL
  rw [hexToHSL_eq_core s R G B hRG b1 b2 b3 b4 b5 b6]
  simp only [e4, e7, jmin_some, jmax_some, jadd_some, jsub_some, jlt_some,
    decide_eq_true_eq]
  by_cases hl : (j:ℚ)/10 < 50
  · rw [if_pos hl]
    exact ⟨min (max ((k:ℚ)/10) 60) 90, min ((j:ℚ)/10 + 30) 80, rfl,
      le_min (le_max_right _ _) (by norm_num), min_le_right _ _,
      rfl, le_min (by linarith) (by norm_num), min_le_right _ _⟩
  · rw [if_neg hl]
    exact ⟨min (max ((k:ℚ)/10) 60) 90, max ((j:ℚ)/10 - 30) 30, rfl,
      le_min (le_max_right _ _) (by norm_num), min_le_right _ _,
      rfl, le_max_right _ _, max_le (by linarith) (by norm_num)⟩

theorem claim_C5_witness :
    validHexColor "#ff0000" = true ∧
    (∃ sq lq : ℚ,
      (complementaryHSL "#ff0000").2.1 = some sq ∧ 60 ≤ sq ∧ sq ≤ 90 ∧
      (complementaryHSL "#ff0000").2.2 = some lq ∧ 30 ≤ lq ∧ lq ≤ 80) :=
  ⟨by decide, claim_C5_adjusted_ranges "#ff0000" (by decide)⟩

/-- Claim C6: for every input color whose three parsed channels are equal
(achromatic, r=g=b), `hexToHSL` returns hue 0 and saturation 0
deterministically, never NaN. -/
theorem claim_C6_achromatic (s : String) (v : ℤ)
    (h : hexRGB s = (some v, some v, some v)) :
    (hexToHSL s).h = some 0 ∧ (hexToHSL s).s = some 0 := by
  unfold hexRGB at h
  simp only [Prod.mk.injEq] at h
  obtain ⟨hp1, hp2, hp3⟩ := h
  have hjs : jsRound (0:ℚ) = 0 := by decide
  have htf : toFixed1 (0:ℚ) = 0 := by decide
  constructor <;>
    simp [hexToHSL, jparse_of_parse _ _ hp1, jparse_of_parse _ _ hp2,
      jparse_of_parse _ _ hp3, jdiv_some255, jmin_some, jmax_some, jsub_some,
      jeqb_some, jmul_some, jround_some, jfix1_some, jlt_some, hjs, htf]

theorem claim_C6_witness :
    hexRGB "#808080" = (some 128, some 128, some 128) ∧
    (hexToHSL "#808080").h = some 0 ∧ (hexToHSL "#808080").s = some 0 :=
  ⟨by decide, claim_C6_achromatic "#808080" 128 (by decide)⟩

/-- Claim C4 (amended): for every valid 6-hex-digit color, the hue that
`calculateComplementaryColor` assigns to the complementary color before
re-encoding to hex is exactly (h + 180) mod 360, where h is the hue of the
original color; the hue recovered by decomposing the emitted hex string
can differ from this by one degree because of channel rounding. -/
theorem claim_C4_hue_shift (s : String) (h : validHexColor s = true) :
    ∃ n : ℤ, (hexToHSL s).h = some ((n:ℚ)) ∧ 0 ≤ n ∧ n < 360 ∧
      (complementaryHSL s).1 = some (((n + 180) % 360 : ℤ) : ℚ) := by
  obtain ⟨R, G, B, hRG, b1, b2, b3, b4, b5, b6⟩ := valid_hexRGB s h
  obtain ⟨n, k, j, e1, e2, e3, -, -, -, -, -, -⟩ :=
    coreHSL_spec R G B b1 b2 b3 b4 b5 b6
  unfold complementaryHSL
  rw [hexToHSL_eq_core s R G B hRG b1 b2 b3 b4 b5 b6]
  simp only [e1, jadd_some, jrem_some360]
  refine ⟨n, rfl, e2, e3, ?_⟩
  have h360 := jsRemQ_intCast (n + 180) 360 (by omega) (by norm_num)
  norm_num at h360
  rw [h360]

theorem claim_C4_witness :
    validHexColor "#ff0000" = true ∧
    (∃ n : ℤ, (hexToHSL "#ff0000").h = some ((n:ℚ)) ∧ 0 ≤ n ∧ n < 360 ∧
      (complementaryHSL "#ff0000").1 = some (((n + 180) % 360 : ℤ) : ℚ)) :=
  ⟨by decide, claim_C4_hue_shift "#ff0000" (by decide)⟩

/-- Claim C4 fails as stated: for the valid input "#000bf7" (hue 237),
the HSL decomposition of the emitted complementary color has hue 58, and
58 - 237 is 181 mod 360, not 180. -/
theorem claim_C4_counterexample :
    validHexColor "#000bf7" = true ∧
    (hexToHSL "#000bf7").h = some 237 ∧
    (hexToHSL (calculateComplementaryColor "#000bf7")).h = some 58 ∧
    (58 - 237 : ℤ) % 360 = 181 ∧ ¬((58 - 237 : ℤ) % 360 = 180) := by
  refine ⟨by decide, by decide, by decide, by decide, by decide⟩

/-- Claim C1 fails as stated: the code raises no error on malformed hex
input; `hexToHSL "#zzz"` returns NaN in every field and
`calculateComplementaryColor` returns the non-color string "#NaNNaNNaN"
instead of failing. -/
theorem claim_C1_counterexample :
    hexToHSL "#zzz" = HSL.mk none none none ∧
    calculateComplementaryColor "#zzz" = "#NaNNaNNaN" := by
  refine ⟨by decide, by decide⟩

theorem comp_starts_hash (s : String) :
    (calculateComplementaryColor s).data.head? = some '#' := by
  unfold calculateComplementaryColor
  by_cases he : s.isEmpty
  · rw [if_pos he]
    rfl
  · rw [if_neg he]
    unfold hslToHex
    simp [String.data_append]

/-- Claim C1 (amended): the code defines no InvalidColorFormat error and
never fails: `calculateComplementaryColor` returns a '#'-prefixed string
on every input. Malformed input is not handled uniformly: when a
two-character chunk has no leading hex digit, `parseInt` yields NaN and
the NaN flows to the output ("#1234" and "#zzz" give NaN in every HSL
field and the string "#NaNNaNNaN"), but when each chunk still starts with
hex digits the input is silently misread as an ordinary color: "#12345"
(wrong length) decodes to HSL (103, 82.5, 11.2) and yields the plausible
color "#8f12c0", and "#1z3456" (non-hex character after a parsable
prefix) decodes to HSL (204, 97.7, 17.1) and yields "#e4620c". -/
theorem claim_C1_nan_propagation :
    (∀ str : String, (calculateComplementaryColor str).data.head? = some '#') ∧
    hexToHSL "#1234" = HSL.mk none none none ∧
    calculateComplementaryColor "#1234" = "#NaNNaNNaN" ∧
    hexToHSL "#zzz" = HSL.mk none none none ∧
    hexToHSL "#12345" = HSL.mk (some 103) (some (165/2)) (some (56/5)) ∧
    calculateComplementaryColor "#12345" = "#8f12c0" ∧
    hexToHSL "#1z3456" = HSL.mk (some 204) (some (977/10)) (some (171/10)) ∧
    calculateComplementaryColor "#1z3456" = "#e4620c" :=
  ⟨comp_starts_hash, by decide, by decide, by decide, by decide, by decide,
    by decide, by decide⟩

/-- Claim C3 fails as stated: with no color supplied, the dominant color
defaults to "#282c34", but the complementary value derived on mount is
"#c49331", not "#6495ED". -/
theorem claim_C3_counterexample :
    defaultDominantColor = "#282c34" ∧
    mountedComplementaryColor = "#c49331" ∧
    mountedComplementaryColor ≠ "#6495ED" := by
  refine ⟨by decide, by decide, by decide⟩

/-- Claim C3 (amended): the dominant color defaults to "#282c34"; the
pre-effect initial complementary constant is "#ED7D31"; the complementary
derived from the default dominant on mount is "#c49331"; the constant
"#6495ED" is returned only when the supplied color is empty (falsy). -/
theorem claim_C3_defaults :
    defaultDominantColor = "#282c34" ∧
    initialComplementaryColor = "#ED7D31" ∧
    mountedComplementaryColor = "#c49331" ∧
    calculateComplementaryColor "" = "#6495ED" := by
  refine ⟨by decide, by decide, by decide, by decide⟩

/-- Claim C7: for input "#ff0000" (h=0, s=100, l=50),
`calculateComplementaryColor` yields "#089191", whose HSL decomposition
has hue 180, saturation 89.5 which lies in [60,90], and lightness
30 = max(50-30, 30), the original lightness 50 not being below 50. -/
theorem claim_C7_red_example :
    hexToHSL "#ff0000" = HSL.mk (some 0) (some 100) (some 50) ∧
    calculateComplementaryColor "#ff0000" = "#089191" ∧
    (hexToHSL "#089191").h = some 180 ∧
    (hexToHSL "#089191").s = some (179/2) ∧
    (60:ℚ) ≤ 179/2 ∧ (179/2:ℚ) ≤ 90 ∧
    (hexToHSL "#089191").l = some 30 := by
  refine ⟨by decide, by decide, by decide, by decide, by decide, by decide,
    by decide⟩

/-- Claim C10: `hexToHSL` and `calculateComplementaryColor` are total on
all string inputs and never throw: every call returns a value (every
produced color string starts with the character #), with malformed input
flowing through the arithmetic as NaN rather than aborting. -/
theorem claim_C10_total :
    (∀ s : String, (calculateComplementaryColor s).data.head? = some '#') ∧
    hexToHSL "#ggg" = HSL.mk none none none ∧
    calculateComplementaryColor "#ggg" = "#NaNNaNNaN" := by
  refine ⟨?_, by decide, by decide⟩
  intro s
  unfold calculateComplementaryColor
  by_cases he : s.isEmpty
  · rw [if_pos he]
    rfl
  · rw [if_neg he]
    unfold hslToHex
    simp [String.data_append]

theorem hexRGB_of_digits (s : String) (c1 c2 c3 c4 c5 c6 : Char)
    (v1 v2 v3 v4 v5 v6 : ℕ)
    (hcs : stripHashL s.data = [c1, c2, c3, c4, c5, c6])
    (h1 : hexDigitVal c1 = some v1) (h2 : hexDigitVal c2 = some v2)
    (h3 : hexDigitVal c3 = some v3) (h4 : hexDigitVal c4 = some v4)
    (h5 : hexDigitVal c5 = some v5) (h6 : hexDigitVal c6 = some v6) :
    hexRGB s = (some ((16 * v1 + v2 : ℕ) : ℤ), some ((16 * v3 + v4 : ℕ) : ℤ),
      some ((16 * v5 + v6 : ℕ) : ℤ)) := by
  unfold hexRGB
  rw [hcs]
  show (parseIntHexL [c1, c2], parseIntHexL [c3, c4], parseIntHexL [c5, c6]) =
    (some ((16 * v1 + v2 : ℕ) : ℤ), some ((16 * v3 + v4 : ℕ) : ℤ),
     some ((16 * v5 + v6 : ℕ) : ℤ))
  rw [parseIntHexL_pair c1 c2 v1 v2 h1 h2, parseIntHexL_pair c3 c4 v3 v4 h3 h4,
    parseIntHexL_pair c5 c6 v5 v6 h5 h6]

/-- Claim C8: `hexToHSL` depends only on the hex digit values of the
(optionally #-prefixed) input: any two strings whose stripped character
sequences carry identical hex-digit values (in particular, upper- and
lower-case spellings of the same color, with or without the leading #)
produce the same HSL triple. -/
theorem claim_C8_case_insensitive (s t : String) (hs : validHexColor s = true)
    (h : (stripHashL s.data).map hexDigitVal =
         (stripHashL t.data).map hexDigitVal) :
    hexToHSL s = hexToHSL t := by
  unfold validHexColor at hs
  rw [Bool.and_eq_true] at hs
  obtain ⟨hlen, hall⟩ := hs
  obtain ⟨c1, c2, c3, c4, c5, c6, hcs⟩ := list_six _ (by simpa using hlen)
  rw [List.all_eq_true] at hall
  have hv : ∀ c ∈ stripHashL s.data, ∃ v, hexDigitVal c = some v := by
    intro c hc
    have := hall c hc
    simpa [isHexDigit, Option.isSome_iff_exists] using this
  rw [hcs] at hv
  obtain ⟨v1, hd1⟩ := hv c1 (by simp)
  obtain ⟨v2, hd2⟩ := hv c2 (by simp)
  obtain ⟨v3, hd3⟩ := hv c3 (by simp)
  obtain ⟨v4, hd4⟩ := hv c4 (by simp)
  obtain ⟨v5, hd5⟩ := hv c5 (by simp)
  obtain ⟨v6, hd6⟩ := hv c6 (by simp)
  have hlen6 : (stripHashL t.data).length = 6 := by
    have hlc := congrArg List.length h
    simp only [List.length_map] at hlc
    rw [hcs] at hlc
    simpa using hlc.symm
  obtain ⟨d1, d2, d3, d4, d5, d6, hct⟩ := list_six _ hlen6
  rw [hcs, hct] at h
  simp only [List.map_cons, List.map_nil, List.cons.injEq, and_true] at h
  obtain ⟨q1, q2, q3, q4, q5, q6⟩ := h
  have e1 := hexRGB_of_digits s c1 c2 c3 c4 c5 c6 v1 v2 v3 v4 v5 v6 hcs
    hd1 hd2 hd3 hd4 hd5 hd6
  have e2 := hexRGB_of_digits t d1 d2 d3 d4 d5 d6 v1 v2 v3 v4 v5 v6 hct
    (q1 ▸ hd1) (q2 ▸ hd2) (q3 ▸ hd3) (q4 ▸ hd4) (q5 ▸ hd5) (q6 ▸ hd6)
  have w1 := (hexDigit_facts c1 v1 hd1).1
  have w2 := (hexDigit_facts c2 v2 hd2).1
  have w3 := (hexDigit_facts c3 v3 hd3).1
  have w4 := (hexDigit_facts c4 v4 hd4).1
  have w5 := (hexDigit_facts c5 v5 hd5).1
  have w6 := (hexDigit_facts c6 v6 hd6).1
  rw [hexToHSL_eq_core s _ _ _ e1 (by positivity) (by exact_mod_cast by omega)
      (by positivity) (by exact_mod_cast by omega) (by positivity)
      (by exact_mod_cast by omega),
    hexToHSL_eq_core t _ _ _ e2 (by positivity) (by exact_mod_cast by omega)
      (by positivity) (by exact_mod_cast by omega) (by positivity)
      (by exact_mod_cast by omega)]

theorem claim_C8_witness :
    validHexColor "#AbCdEf" = true ∧
    (stripHashL "#AbCdEf".data).map hexDigitVal =
      (stripHashL "abcdef".data).map hexDigitVal ∧
    hexToHSL "#AbCdEf" = hexToHSL "abcdef" :=
  ⟨by decide, by decide,
    claim_C8_case_insensitive "#AbCdEf" "abcdef" (by decide) (by decide)⟩

theorem ratFloor_mono (a b : ℚ) (h : a ≤ b) : ratFloor a ≤ ratFloor b := by
  rw [ratFloor_eq, ratFloor_eq]
  exact Int.floor_mono h

theorem jsRemQ_two_mem (y : ℚ) (h0 : 0 ≤ y) : 0 ≤ jsRemQ y 2 ∧ jsRemQ y 2 < 2 := by
  unfold jsRemQ ratTrunc
  rw [if_pos (by positivity : (0:ℚ) ≤ y / 2), ratFloor_eq]
  have h1 : (⌊y / 2⌋ : ℚ) ≤ y / 2 := Int.floor_le _
  have h2 : y / 2 < ⌊y / 2⌋ + 1 := Int.lt_floor_add_one _
  constructor <;> linarith

theorem max3_1 (p q r : ℚ) (h1 : q ≤ p) (h2 : r ≤ p) : max p (max q r) = p :=
  max_eq_left (max_le h1 h2)

theorem max3_2 (p q r : ℚ) (h1 : p ≤ q) (h2 : r ≤ q) : max p (max q r) = q := by
  rw [max_eq_left h2]
  exact max_eq_right h1

theorem max3_3 (p q r : ℚ) (h1 : p ≤ r) (h2 : q ≤ r) : max p (max q r) = r := by
  rw [max_eq_right h2]
  exact max_eq_right h1

theorem min3_1 (p q r : ℚ) (h1 : p ≤ q) (h2 : p ≤ r) : min p (min q r) = p :=
  min_eq_left (le_min h1 h2)

theorem min3_2 (p q r : ℚ) (h1 : q ≤ p) (h2 : q ≤ r) : min p (min q r) = q := by
  rw [min_eq_left h2]
  exact min_eq_right h1

theorem min3_3 (p q r : ℚ) (h1 : r ≤ p) (h2 : r ≤ q) : min p (min q r) = r := by
  rw [min_eq_right h2]
  exact min_eq_right h1

theorem coreHSL_s_eq (r g b : ℚ) :
    (coreHSL r g b).2.1 = satOfMinMax (max (r/255) (max (g/255) (b/255)))
      (min (r/255) (min (g/255) (b/255))) := rfl

theorem coreHSL_l_eq (r g b : ℚ) :
    (coreHSL r g b).2.2 = lightOfMinMax (max (r/255) (max (g/255) (b/255)))
      (min (r/255) (min (g/255) (b/255))) := rfl

theorem max_min_cast_div (R G B : ℤ) :
    max ((R:ℚ)/255) (max ((G:ℚ)/255) ((B:ℚ)/255)) =
      ((max R (max G B) : ℤ) : ℚ)/255 ∧
    min ((R:ℚ)/255) (min ((G:ℚ)/255) ((B:ℚ)/255)) =
      ((min R (min G B) : ℤ) : ℚ)/255 := by
  constructor
  · push_cast
    rw [max_div_div_right (by norm_num : (0:ℚ) ≤ 255),
      max_div_div_right (by norm_num : (0:ℚ) ≤ 255)]
  · push_cast
    rw [min_div_div_right (by norm_num : (0:ℚ) ≤ 255),
      min_div_div_right (by norm_num : (0:ℚ) ≤ 255)]

set_option maxRecDepth 4000 in
theorem byte_roundtrip : ∀ i : Fin 256,
    (padStart2 (intToHexStr ((i : ℕ) : ℤ))).data.length = 2 ∧
    parseIntHexL (padStart2 (intToHexStr ((i : ℕ) : ℤ))).data = some ((i : ℕ) : ℤ) := by
  decide

theorem byte_roundtrip_int (a : ℤ) (h0 : 0 ≤ a) (h1 : a ≤ 255) :
    (padStart2 (intToHexStr a)).data.length = 2 ∧
    parseIntHexL (padStart2 (intToHexStr a)).data = some a := by
  have hf : a.toNat < 256 := by omega
  have hr := byte_roundtrip ⟨a.toNat, hf⟩
  have he : ((a.toNat : ℕ) : ℤ) = a := Int.toNat_of_nonneg h0
  rw [Fin.val_mk] at hr
  rw [he] at hr
  exact hr

theorem hexRGB_of_bytes (a b c : ℤ) (ha0 : 0 ≤ a) (ha1 : a ≤ 255)
    (hb0 : 0 ≤ b) (hb1 : b ≤ 255) (hc0 : 0 ≤ c) (hc1 : c ≤ 255) :
    hexRGB ("#" ++ padStart2 (intToHexStr a) ++ padStart2 (intToHexStr b) ++
      padStart2 (intToHexStr c)) = (some a, some b, some c) := by
  obtain ⟨hla, hpa⟩ := byte_roundtrip_int a ha0 ha1
  obtain ⟨hlb, hpb⟩ := byte_roundtrip_int b hb0 hb1
  obtain ⟨hlc, hpc⟩ := byte_roundtrip_int c hc0 hc1
  unfold hexRGB
  have hdata : ("#" ++ padStart2 (intToHexStr a) ++ padStart2 (intToHexStr b) ++
      padStart2 (intToHexStr c)).data =
      '#' :: ((padStart2 (intToHexStr a)).data ++
        ((padStart2 (intToHexStr b)).data ++ (padStart2 (intToHexStr c)).data)) := by
    simp [String.data_append]
  rw [hdata]
  have hstrip : stripHashL ('#' :: ((padStart2 (intToHexStr a)).data ++
      ((padStart2 (intToHexStr b)).data ++ (padStart2 (intToHexStr c)).data))) =
      (padStart2 (intToHexStr a)).data ++
        ((padStart2 (intToHexStr b)).data ++ (padStart2 (intToHexStr c)).data) := rfl
  rw [hstrip]
  have ht1 : ((padStart2 (intToHexStr a)).data ++
      ((padStart2 (intToHexStr b)).data ++ (padStart2 (intToHexStr c)).data)).take 2 =
      (padStart2 (intToHexStr a)).data := List.take_left' hla
  have hd2 : ((padStart2 (intToHexStr a)).data ++
      ((padStart2 (intToHexStr b)).data ++ (padStart2 (intToHexStr c)).data)).drop 2 =
      (padStart2 (intToHexStr b)).data ++ (padStart2 (intToHexStr c)).data :=
    List.drop_left' hla
  have ht2 : ((padStart2 (intToHexStr b)).data ++
      (padStart2 (intToHexStr c)).data).take 2 = (padStart2 (intToHexStr b)).data :=
    List.take_left' hlb
  have hd4 : ((padStart2 (intToHexStr a)).data ++
      ((padStart2 (intToHexStr b)).data ++ (padStart2 (intToHexStr c)).data)).drop 4 =
      (padStart2 (intToHexStr c)).data := by
    have h4 : (4:ℕ) = 2 + 2 := rfl
    rw [h4, ← List.drop_drop, hd2, List.drop_left' hlb]
  have ht3 : (padStart2 (intToHexStr c)).data.take 2 =
      (padStart2 (intToHexStr c)).data := by
    rw [← hlc]
    exact List.take_length _
  show (parseIntHexL _, parseIntHexL _, parseIntHexL _) = _
  rw [ht1, hd2, ht2, hd4, ht3, hpa, hpb, hpc]

theorem ratFloor_half_eq (y : ℚ) (N : ℤ) (h1 : (N:ℚ) - 1/2 < y)
    (h2 : y < (N:ℚ) + 1/2) : ratFloor (y + 1/2) = N := by
  rw [ratFloor_eq]
  apply Int.floor_eq_iff.2
  constructor
  · linarith
  · linarith

theorem channels_exact (Cx Cn : ℤ) (sl c m : ℚ)
    (hel : |sl - ((Cx:ℚ) + (Cn:ℚ))/510| ≤ 1/2000)
    (hcB : |255*c - ((Cx:ℚ) - (Cn:ℚ))| ≤ 2/5)
    (hm : m = sl - c/2) :
    ratFloor ((c + m)*255 + 1/2) = Cx ∧ ratFloor (m*255 + 1/2) = Cn := by
  rw [abs_le] at hel hcB
  subst hm
  constructor
  · apply ratFloor_half_eq
    · linarith [hel.1, hel.2, hcB.1, hcB.2]
    · linarith [hel.1, hel.2, hcB.1, hcB.2]
  · apply ratFloor_half_eq
    · linarith [hel.1, hel.2, hcB.1, hcB.2]
    · linarith [hel.1, hel.2, hcB.1, hcB.2]

theorem toFixed1_div100_err (x : ℚ) : |toFixed1 (x * 100) / 100 - x| ≤ 1/2000 := by
  have h := toFixed1_sub_le (x * 100)
  have h2 : toFixed1 (x * 100) / 100 - x = (toFixed1 (x * 100) - x * 100) / 100 := by
    ring
  rw [h2, abs_div, abs_of_pos (show (0:ℚ) < 100 by norm_num)]
  linarith

theorem c_bound (Cx Cn : ℤ) (h0 : 0 ≤ Cn) (h1 : Cn ≤ Cx) (h2 : Cx ≤ 255) :
    |255 * ((1 - |2 * (lightOfMinMax ((Cx:ℚ)/255) ((Cn:ℚ)/255) / 100) - 1|) *
      (satOfMinMax ((Cx:ℚ)/255) ((Cn:ℚ)/255) / 100)) - ((Cx:ℚ) - (Cn:ℚ))| ≤ 2/5 := by
  by_cases hcc : Cx = Cn
  · subst hcc
    have hsz : satOfMinMax ((Cx:ℚ)/255) ((Cx:ℚ)/255) = 0 := by
      unfold satOfMinMax
      rw [if_pos (sub_self ((Cx:ℚ)/255))]
      decide
    rw [hsz]
    have hz : (255:ℚ) * ((1 - |2 * (lightOfMinMax ((Cx:ℚ)/255) ((Cx:ℚ)/255) / 100) -
        1|) * ((0:ℚ) / 100)) - ((Cx:ℚ) - (Cx:ℚ)) = 0 := by ring
    rw [hz, abs_zero]
    norm_num
  · have hlt : Cn < Cx := lt_of_le_of_ne h1 (fun he => hcc he.symm)
    have hD1 : (1:ℚ) ≤ (Cx:ℚ) - Cn := by
      have hi : Cn + 1 ≤ Cx := hlt
      have hq : ((Cn + 1 : ℤ):ℚ) ≤ ((Cx:ℤ):ℚ) := by exact_mod_cast hi
      push_cast at hq
      linarith
    have hCxq : (Cx:ℚ) ≤ 255 := by exact_mod_cast h2
    have hCnq : (0:ℚ) ≤ (Cn:ℚ) := by exact_mod_cast h0
    have hne : ¬((Cx:ℚ)/255 - (Cn:ℚ)/255 = 0) := fun hzz => by linarith
    set A0 : ℚ := 1 - |((Cx:ℚ) + (Cn:ℚ))/255 - 1| with hA0
    have hA0lo : ((Cx:ℚ) - (Cn:ℚ))/255 ≤ A0 := by
      rw [hA0]
      have habs : |((Cx:ℚ) + (Cn:ℚ))/255 - 1| ≤ 1 - ((Cx:ℚ) - (Cn:ℚ))/255 := by
        rw [abs_le]
        constructor
        · linarith
        · linarith
      linarith
    have hA0hi : A0 ≤ 1 := by
      rw [hA0]
      linarith [abs_nonneg (((Cx:ℚ) + (Cn:ℚ))/255 - 1)]
    have hA0pos : 0 < A0 := by
      have h255 : (0:ℚ) < ((Cx:ℚ) - (Cn:ℚ))/255 := by
        apply div_pos <;> [linarith; norm_num]
      exact lt_of_lt_of_le h255 hA0lo
    set sraw : ℚ := (((Cx:ℚ) - (Cn:ℚ))/255) / A0 with hsraw
    have hsraw0 : 0 ≤ sraw := by
      rw [hsraw]
      apply div_nonneg _ (le_of_lt hA0pos)
      linarith
    have hsraw1 : sraw ≤ 1 := by
      rw [hsraw]
      exact (div_le_one hA0pos).2 hA0lo
    have hSeq : satOfMinMax ((Cx:ℚ)/255) ((Cn:ℚ)/255) = toFixed1 (sraw * 100) := by
      unfold satOfMinMax
      rw [if_neg hne]
      congr 1
      rw [hsraw, hA0]
      have e1 : (Cx:ℚ)/255 - (Cn:ℚ)/255 = ((Cx:ℚ) - (Cn:ℚ))/255 := by ring
      have e2 : 2 * (((Cx:ℚ)/255 + (Cn:ℚ)/255) / 2) - 1 =
          ((Cx:ℚ) + (Cn:ℚ))/255 - 1 := by ring
      rw [e1, e2]
    have hLeq : lightOfMinMax ((Cx:ℚ)/255) ((Cn:ℚ)/255) =
        toFixed1 ((((Cx:ℚ) + (Cn:ℚ))/510) * 100) := by
      unfold lightOfMinMax
      congr 1
      ring
    set S1 : ℚ := satOfMinMax ((Cx:ℚ)/255) ((Cn:ℚ)/255) with hS1d
    set L1 : ℚ := lightOfMinMax ((Cx:ℚ)/255) ((Cn:ℚ)/255) with hL1d
    have hsp : |S1/100 - sraw| ≤ 1/2000 := by
      rw [hSeq]
      exact toFixed1_div100_err sraw
    have hlp : |L1/100 - ((Cx:ℚ) + (Cn:ℚ))/510| ≤ 1/2000 := by
      rw [hLeq]
      exact toFixed1_div100_err _
    set A : ℚ := 1 - |2 * (L1/100) - 1| with hA
    have hAd : |A - A0| ≤ 1/1000 := by
      rw [hA, hA0]
      have e3 : (1 - |2 * (L1/100) - 1|) - (1 - |((Cx:ℚ) + (Cn:ℚ))/255 - 1|) =
          |((Cx:ℚ) + (Cn:ℚ))/255 - 1| - |2 * (L1/100) - 1| := by ring
      rw [e3]
      have h4 := abs_abs_sub_abs_le_abs_sub (((Cx:ℚ) + (Cn:ℚ))/255 - 1)
        (2 * (L1/100) - 1)
      have e5 : (((Cx:ℚ) + (Cn:ℚ))/255 - 1) - (2 * (L1/100) - 1) =
          2 * (((Cx:ℚ) + (Cn:ℚ))/510 - L1/100) := by ring
      rw [e5] at h4
      have h6 : |2 * (((Cx:ℚ) + (Cn:ℚ))/510 - L1/100)| =
          2 * |((Cx:ℚ) + (Cn:ℚ))/510 - L1/100| := by
        rw [abs_mul]
        norm_num
      have h7 : |((Cx:ℚ) + (Cn:ℚ))/510 - L1/100| ≤ 1/2000 := by
        rw [abs_sub_comm]
        exact hlp
      refine le_trans h4 ?_
      rw [h6]
      linarith
    have hslo := (abs_le.1 hsp).1
    have hshi := (abs_le.1 hsp).2
    have hsab : |S1/100| ≤ 2001/2000 := by
      rw [abs_le]
      constructor
      · linarith
      · linarith
    have hc1 : A0 * sraw = ((Cx:ℚ) - (Cn:ℚ)) / 255 := by
      rw [hsraw, mul_comm, div_mul_cancel₀ _ (ne_of_gt hA0pos)]
    have hA0s : (255:ℚ) * (A0 * sraw) = (Cx:ℚ) - (Cn:ℚ) := by
      rw [hc1]
      ring
    have hkey : (255:ℚ) * (A * (S1/100)) - ((Cx:ℚ) - (Cn:ℚ)) =
        255 * (A0 * (S1/100 - sraw)) + 255 * ((A - A0) * (S1/100)) := by
      linear_combination hA0s
    have p1 : |A0 * (S1/100 - sraw)| ≤ 1/2000 := by
      rw [abs_mul, abs_of_pos hA0pos]
      calc A0 * |S1/100 - sraw| ≤ 1 * (1/2000) :=
            mul_le_mul hA0hi hsp (abs_nonneg _) (by norm_num)
        _ = 1/2000 := by norm_num
    have p2 : |(A - A0) * (S1/100)| ≤ 1/1000 * (2001/2000) := by
      rw [abs_mul]
      exact mul_le_mul hAd hsab (abs_nonneg _) (by norm_num)
    calc |255 * (A * (S1/100)) - ((Cx:ℚ) - (Cn:ℚ))|
        = |255 * (A0 * (S1/100 - sraw)) + 255 * ((A - A0) * (S1/100))| := by
          rw [hkey]
      _ ≤ |255 * (A0 * (S1/100 - sraw))| + |255 * ((A - A0) * (S1/100))| :=
          abs_add _ _
      _ = 255 * |A0 * (S1/100 - sraw)| + 255 * |(A - A0) * (S1/100)| := by
          rw [abs_mul 255 (A0 * (S1/100 - sraw)), abs_mul 255 ((A - A0) * (S1/100))]
          norm_num
      _ ≤ 255 * (1/2000) + 255 * (1/1000 * (2001/2000)) := by linarith
      _ ≤ 2/5 := by norm_num

theorem byte_div_le (a b : ℤ) (hab : a ≤ b) : (a:ℚ)/255 ≤ (b:ℚ)/255 := by
  have h : (a:ℚ) ≤ (b:ℚ) := by exact_mod_cast hab
  linarith

theorem emit_sl_exact (Cx Cn : ℤ) (cq mq : ℚ) (v1 v2 v3 : ℚ)
    (hcn0 : 0 ≤ Cn) (hcx : Cx ≤ 255)
    (hhiv : ratFloor ((cq + mq)*255 + 1/2) = Cx)
    (hlov : ratFloor (mq*255 + 1/2) = Cn)
    (h1 : mq ≤ v1 ∧ v1 ≤ cq + mq) (h2 : mq ≤ v2 ∧ v2 ≤ cq + mq)
    (h3 : mq ≤ v3 ∧ v3 ≤ cq + mq)
    (hhi : v1 = cq + mq ∨ v2 = cq + mq ∨ v3 = cq + mq)
    (hlo : v1 = mq ∨ v2 = mq ∨ v3 = mq) :
    (hexToHSL ("#" ++ padStart2 (intToHexStr (ratFloor (v1*255 + 1/2))) ++
      padStart2 (intToHexStr (ratFloor (v2*255 + 1/2))) ++
      padStart2 (intToHexStr (ratFloor (v3*255 + 1/2))))).s =
      some (satOfMinMax ((Cx:ℚ)/255) ((Cn:ℚ)/255)) ∧
    (hexToHSL ("#" ++ padStart2 (intToHexStr (ratFloor (v1*255 + 1/2))) ++
      padStart2 (intToHexStr (ratFloor (v2*255 + 1/2))) ++
      padStart2 (intToHexStr (ratFloor (v3*255 + 1/2))))).l =
      some (lightOfMinMax ((Cx:ℚ)/255) ((Cn:ℚ)/255)) := by
  have keym : ∀ a b : ℚ, a ≤ b →
      ratFloor (a*255 + 1/2) ≤ ratFloor (b*255 + 1/2) :=
    fun a b hab => ratFloor_mono _ _ (by linarith)
  have hA1lo : Cn ≤ ratFloor (v1*255 + 1/2) := hlov ▸ keym _ _ h1.1
  have hA2lo : Cn ≤ ratFloor (v2*255 + 1/2) := hlov ▸ keym _ _ h2.1
  have hA3lo : Cn ≤ ratFloor (v3*255 + 1/2) := hlov ▸ keym _ _ h3.1
  have hA1hi : ratFloor (v1*255 + 1/2) ≤ Cx := hhiv ▸ keym _ _ h1.2
  have hA2hi : ratFloor (v2*255 + 1/2) ≤ Cx := hhiv ▸ keym _ _ h2.2
  have hA3hi : ratFloor (v3*255 + 1/2) ≤ Cx := hhiv ▸ keym _ _ h3.2
  have b10 : 0 ≤ ratFloor (v1*255 + 1/2) := le_trans hcn0 hA1lo
  have b20 : 0 ≤ ratFloor (v2*255 + 1/2) := le_trans hcn0 hA2lo
  have b30 : 0 ≤ ratFloor (v3*255 + 1/2) := le_trans hcn0 hA3lo
  have b11 : ratFloor (v1*255 + 1/2) ≤ 255 := le_trans hA1hi hcx
  have b21 : ratFloor (v2*255 + 1/2) ≤ 255 := le_trans hA2hi hcx
  have b31 : ratFloor (v3*255 + 1/2) ≤ 255 := le_trans hA3hi hcx
  have key : ∀ a b : ℚ, a ≤ b →
      (ratFloor (a*255 + 1/2) : ℚ)/255 ≤ (ratFloor (b*255 + 1/2) : ℚ)/255 :=
    fun a b hab => byte_div_le _ _ (keym _ _ hab)
  have hmax : max ((ratFloor (v1*255 + 1/2) : ℚ)/255)
      (max ((ratFloor (v2*255 + 1/2) : ℚ)/255) ((ratFloor (v3*255 + 1/2) : ℚ)/255)) =
      (Cx:ℚ)/255 := by
    rw [← hhiv]
    apply le_antisymm
    · exact max_le (key _ _ h1.2) (max_le (key _ _ h2.2) (key _ _ h3.2))
    · rcases hhi with hH | hH | hH
      · rw [← hH]
        exact le_max_left _ _
      · rw [← hH]
        exact le_trans (le_max_left _ _) (le_max_right _ _)
      · rw [← hH]
        exact le_trans (le_max_right _ _) (le_max_right _ _)
  have hmin : min ((ratFloor (v1*255 + 1/2) : ℚ)/255)
      (min ((ratFloor (v2*255 + 1/2) : ℚ)/255) ((ratFloor (v3*255 + 1/2) : ℚ)/255)) =
      (Cn:ℚ)/255 := by
    rw [← hlov]
    apply le_antisymm
    · rcases hlo with hL | hL | hL
      · rw [← hL]
        exact min_le_left _ _
      · rw [← hL]
        exact le_trans (min_le_right _ _) (min_le_left _ _)
      · rw [← hL]
        exact le_trans (min_le_right _ _) (min_le_right _ _)
    · exact le_min (key _ _ h1.1) (le_min (key _ _ h2.1) (key _ _ h3.1))
  rw [hexToHSL_eq_core _ _ _ _
    (hexRGB_of_bytes _ _ _ b10 b11 b20 b21 b30 b31) b10 b11 b20 b21 b30 b31]
  constructor
  · show some ((coreHSL _ _ _).2.1) = _
    rw [coreHSL_s_eq, hmax, hmin]
  · show some ((coreHSL _ _ _).2.2) = _
    rw [coreHSL_l_eq, hmax, hmin]

set_option maxHeartbeats 4000000 in
set_option maxRecDepth 8000 in
/-- Claim C2 (amended): for every valid 6-hex-digit color c, the round
trip hexToHSL(hslToHex(hexToHSL(c))) reproduces the saturation and
lightness fields of hexToHSL(c) exactly, hence in particular within the
1-unit rounding tolerance; the hue field is only reproduced modulo 360
(the counterexample wraps 359 to 0). -/
theorem claim_C2_roundtrip_sat_light (s : String) (h : validHexColor s = true) :
    ∃ s1 l1 s2 l2 : ℚ,
      (hexToHSL s).s = some s1 ∧
      (hexToHSL s).l = some l1 ∧
      (hexToHSL (hslToHex (hexToHSL s).h (hexToHSL s).s (hexToHSL s).l)).s =
        some s2 ∧
      (hexToHSL (hslToHex (hexToHSL s).h (hexToHSL s).s (hexToHSL s).l)).l =
        some l2 ∧
      s2 = s1 ∧ l2 = l1 ∧ |s2 - s1| ≤ 1 ∧ |l2 - l1| ≤ 1 := by
  obtain ⟨R, G, B, hRG, b1, b2, b3, b4, b5, b6⟩ := valid_hexRGB s h
  obtain ⟨n, k, j, e1, e2, e3, e4, e5, e6, e7, e8, e9⟩ :=
    coreHSL_spec R G B b1 b2 b3 b4 b5 b6
  have hcn0 : 0 ≤ min R (min G B) := le_min b1 (le_min b3 b5)
  have hcc : min R (min G B) ≤ max R (max G B) :=
    le_trans (min_le_left _ _) (le_max_left _ _)
  have hcx : max R (max G B) ≤ 255 := max_le b2 (max_le b4 b6)
  have hcast := max_min_cast_div R G B
  have hkeq : satOfMinMax (((max R (max G B) : ℤ):ℚ)/255)
      (((min R (min G B) : ℤ):ℚ)/255) = (k:ℚ)/10 := by
    rw [← hcast.1, ← hcast.2, ← coreHSL_s_eq]
    exact e4
  have hjeq : lightOfMinMax (((max R (max G B) : ℤ):ℚ)/255)
      (((min R (min G B) : ℤ):ℚ)/255) = (j:ℚ)/10 := by
    rw [← hcast.1, ← hcast.2, ← coreHSL_l_eq]
    exact e7
  rw [hexToHSL_eq_core s R G B hRG b1 b2 b3 b4 b5 b6]
  simp only [e1, e4, e7]
  have hRT : (hexToHSL (hslToHex (some ((n:ℚ))) (some ((k:ℚ)/10))
        (some ((j:ℚ)/10)))).s = some ((k:ℚ)/10) ∧
      (hexToHSL (hslToHex (some ((n:ℚ))) (some ((k:ℚ)/10))
        (some ((j:ℚ)/10)))).l = some ((j:ℚ)/10) := by
    unfold hslToHex
    simp only [jdiv_some100, jdiv_some60, jdiv_some2, jrem_some2, jmul_some,
      jsub_some, jadd_some, jabs_some, jle_some, jlt_some, Bool.and_eq_true,
      decide_eq_true_eq]
    set sl : ℚ := (j:ℚ)/10/100 with hsldef
    set ss : ℚ := (k:ℚ)/10/100 with hssdef
    set cq : ℚ := (1 - |2 * sl - 1|) * ss with hcqdef
    set t : ℚ := 1 - |jsRemQ ((n:ℚ)/60) 2 - 1| with htdef
    set mq : ℚ := sl - cq / 2 with hmqdef
    have hjq0 : (0:ℚ) ≤ (j:ℚ) := by exact_mod_cast e8
    have hjq1 : (j:ℚ) ≤ 1000 := by exact_mod_cast e9
    have hkq0 : (0:ℚ) ≤ (k:ℚ) := by exact_mod_cast e5
    have hkq1 : (k:ℚ) ≤ 1000 := by exact_mod_cast e6
    have hsl0 : 0 ≤ sl := by rw [hsldef]; positivity
    have hsl1 : sl ≤ 1 := by rw [hsldef]; linarith
    have hss0 : 0 ≤ ss := by rw [hssdef]; positivity
    have hss1 : ss ≤ 1 := by rw [hssdef]; linarith
    have habs1 : |2 * sl - 1| ≤ 1 := abs_le.2 ⟨by linarith, by linarith⟩
    have hc0 : 0 ≤ cq := by
      rw [hcqdef]; exact mul_nonneg (by linarith) hss0
    have hn0q : (0:ℚ) ≤ (n:ℚ) := by exact_mod_cast e2
    have hrem := jsRemQ_two_mem ((n:ℚ)/60) (by positivity)
    have ht0 : 0 ≤ t := by
      rw [htdef]
      have := abs_le.2 (⟨by linarith [hrem.1], by linarith [hrem.2]⟩ :
        -1 ≤ jsRemQ ((n:ℚ)/60) 2 - 1 ∧ jsRemQ ((n:ℚ)/60) 2 - 1 ≤ 1)
      linarith
    have ht1 : t ≤ 1 := by
      rw [htdef]
      have := abs_nonneg (jsRemQ ((n:ℚ)/60) 2 - 1)
      linarith
    have hxt0 : 0 ≤ cq * t := mul_nonneg hc0 ht0
    have hxtc : cq * t ≤ cq := mul_le_of_le_one_right hc0 ht1
    have pC : mq ≤ cq + mq ∧ cq + mq ≤ cq + mq := ⟨by linarith, le_refl _⟩
    have pX : mq ≤ cq * t + mq ∧ cq * t + mq ≤ cq + mq := ⟨by linarith, by linarith⟩
    have pM : mq ≤ mq ∧ mq ≤ cq + mq := ⟨le_refl _, by linarith⟩
    have hel : |sl - (((max R (max G B) : ℤ):ℚ) + ((min R (min G B) : ℤ):ℚ))/510| ≤
        1/2000 := by
      have hle : lightOfMinMax (((max R (max G B) : ℤ):ℚ)/255)
          (((min R (min G B) : ℤ):ℚ)/255) =
          toFixed1 (((((max R (max G B) : ℤ):ℚ) +
            ((min R (min G B) : ℤ):ℚ))/510) * 100) := by
        unfold lightOfMinMax
        congr 1
        ring
      have h2 := toFixed1_div100_err ((((max R (max G B) : ℤ):ℚ) +
        ((min R (min G B) : ℤ):ℚ))/510)
      rw [← hle, hjeq] at h2
      rw [hsldef]
      exact h2
    have hcB : |255 * cq - (((max R (max G B) : ℤ):ℚ) -
        ((min R (min G B) : ℤ):ℚ))| ≤ 2/5 := by
      have h3 := c_bound (max R (max G B)) (min R (min G B)) hcn0 hcc hcx
      rw [hkeq, hjeq] at h3
      rw [hcqdef, hsldef, hssdef]
      exact h3
    obtain ⟨hhiv, hlov⟩ := channels_exact (max R (max G B)) (min R (min G B))
      sl cq mq hel hcB hmqdef
    by_cases s1 : (n:ℚ) < 60
    · rw [if_pos ⟨hn0q, s1⟩]
      simp only [jadd_some, jsub_some, jdiv_some2, jmul_some, zero_add, chanToHex]
      obtain ⟨hS2, hL2⟩ := emit_sl_exact (max R (max G B)) (min R (min G B)) cq mq
        (cq + mq) (cq * t + mq) mq hcn0 hcx hhiv hlov pC pX pM
        (Or.inl rfl) (Or.inr (Or.inr rfl))
      rw [hkeq] at hS2
      rw [hjeq] at hL2
      exact ⟨hS2, hL2⟩
    · rw [if_neg (fun hc => s1 hc.2)]
      by_cases s2 : (n:ℚ) < 120
      · rw [if_pos ⟨by linarith [not_lt.1 s1], s2⟩]
        simp only [jadd_some, jsub_some, jdiv_some2, jmul_some, zero_add, chanToHex]
        obtain ⟨hS2, hL2⟩ := emit_sl_exact (max R (max G B)) (min R (min G B)) cq mq
          (cq * t + mq) (cq + mq) mq hcn0 hcx hhiv hlov pX pC pM
          (Or.inr (Or.inl rfl)) (Or.inr (Or.inr rfl))
        rw [hkeq] at hS2
        rw [hjeq] at hL2
        exact ⟨hS2, hL2⟩
      · rw [if_neg (fun hc => s2 hc.2)]
        by_cases s3 : (n:ℚ) < 180
        · rw [if_pos ⟨by linarith [not_lt.1 s2], s3⟩]
          simp only [jadd_some, jsub_some, jdiv_some2, jmul_some, zero_add, chanToHex]
          obtain ⟨hS2, hL2⟩ := emit_sl_exact (max R (max G B)) (min R (min G B)) cq mq
            mq (cq + mq) (cq * t + mq) hcn0 hcx hhiv hlov pM pC pX
            (Or.inr (Or.inl rfl)) (Or.inl rfl)
          rw [hkeq] at hS2
          rw [hjeq] at hL2
          exact ⟨hS2, hL2⟩
        · rw [if_neg (fun hc => s3 hc.2)]
          by_cases s4 : (n:ℚ) < 240
          · rw [if_pos ⟨by linarith [not_lt.1 s3], s4⟩]
            simp only [jadd_some, jsub_some, jdiv_some2, jmul_some, zero_add,
              chanToHex]
            obtain ⟨hS2, hL2⟩ := emit_sl_exact (max R (max G B)) (min R (min G B))
              cq mq mq (cq * t + mq) (cq + mq) hcn0 hcx hhiv hlov pM pX pC
              (Or.inr (Or.inr rfl)) (Or.inl rfl)
            rw [hkeq] at hS2
            rw [hjeq] at hL2
            exact ⟨hS2, hL2⟩
          · rw [if_neg (fun hc => s4 hc.2)]
            by_cases s5 : (n:ℚ) < 300
            · rw [if_pos ⟨by linarith [not_lt.1 s4], s5⟩]
              simp only [jadd_some, jsub_some, jdiv_some2, jmul_some, zero_add,
                chanToHex]
              obtain ⟨hS2, hL2⟩ := emit_sl_exact (max R (max G B)) (min R (min G B))
                cq mq (cq * t + mq) mq (cq + mq) hcn0 hcx hhiv hlov pX pM pC
                (Or.inr (Or.inr rfl)) (Or.inr (Or.inl rfl))
              rw [hkeq] at hS2
              rw [hjeq] at hL2
              exact ⟨hS2, hL2⟩
            · rw [if_neg (fun hc => s5 hc.2)]
              simp only [jadd_some, jsub_some, jdiv_some2, jmul_some, zero_add,
                chanToHex]
              obtain ⟨hS2, hL2⟩ := emit_sl_exact (max R (max G B)) (min R (min G B))
                cq mq (cq + mq) mq (cq * t + mq) hcn0 hcx hhiv hlov pC pM pX
                (Or.inl rfl) (Or.inr (Or.inl rfl))
              rw [hkeq] at hS2
              rw [hjeq] at hL2
              exact ⟨hS2, hL2⟩
  exact ⟨(k:ℚ)/10, (j:ℚ)/10, (k:ℚ)/10, (j:ℚ)/10, rfl, rfl, hRT.1, hRT.2, rfl, rfl,
    by rw [sub_self, abs_zero]; norm_num, by rw [sub_self, abs_zero]; norm_num⟩

theorem claim_C2_witness :
    validHexColor "#ff0000" = true ∧
    (∃ s1 l1 s2 l2 : ℚ,
      (hexToHSL "#ff0000").s = some s1 ∧
      (hexToHSL "#ff0000").l = some l1 ∧
      (hexToHSL (hslToHex (hexToHSL "#ff0000").h (hexToHSL "#ff0000").s
        (hexToHSL "#ff0000").l)).s = some s2 ∧
      (hexToHSL (hslToHex (hexToHSL "#ff0000").h (hexToHSL "#ff0000").s
        (hexToHSL "#ff0000").l)).l = some l2 ∧
      s2 = s1 ∧ l2 = l1 ∧ |s2 - s1| ≤ 1 ∧ |l2 - l1| ≤ 1) :=
  ⟨by decide, claim_C2_roundtrip_sat_light "#ff0000" (by decide)⟩

/-- Claim C2 fails as stated: for the valid color "#b48c8d" the hue field
of the round trip changes from 359 to 0, a plain-number difference of 359,
far above the 1-unit tolerance (it is 1 only modulo 360). -/
theorem claim_C2_counterexample :
    validHexColor "#b48c8d" = true ∧
    (hexToHSL "#b48c8d").h = some 359 ∧
    (hexToHSL (hslToHex (hexToHSL "#b48c8d").h (hexToHSL "#b48c8d").s
      (hexToHSL "#b48c8d").l)).h = some 0 ∧
    ¬(|(0:ℚ) - 359| ≤ 1) := by
  refine ⟨by decide, by decide, by decide, by decide⟩
